import Mathlib

/-!
Verification of the nanoleaf device-client library (`nanoleaf.go`).

The development shallowly embeds the request-reliability layer — the retry
loop `Controller.retry`, its error classifier `retryableErr`, the backoff
timeout schedule — together with the JSON request encoding of the device
operations (`On`, `Off`, `SetBrightness`) and the response handling of
`Controller.get` / `Controller.put`.

Durations are modelled in whole nanoseconds (`Nat`), matching Go's
`time.Duration` (an `int64` count of nanoseconds; every value reached by
the retry loop is nonnegative and small).
-/

namespace Nanoleaf

/-- Go `error` values that the code distinguishes.
`deadlineExceeded` is the sentinel `context.DeadlineExceeded`;
`canceled` is `context.Canceled`; `net timeout msg` is an error whose
dynamic type implements `net.Error`, with the result of its `Timeout()`
method; `errorString` is any other leaf error (as made by `fmt.Errorf`
without `%w`, `errors.New`, ...); `jsonDecode` is an error returned by
`encoding/json`'s `Unmarshal`; `wrap stage inner` is the wrapper built by
`fmt.Errorf("<stage>: %w", inner)` (its dynamic type is `*fmt.wrapError`,
which does not implement `net.Error`). A Go `error` variable is `Option
GoError`, with `none` for `nil`. -/
inductive GoError where
  | deadlineExceeded
  | canceled
  | net (timeout : Bool) (msg : String)
  | errorString (msg : String)
  | jsonDecode (msg : String)
  | wrap (stage : String) (inner : GoError)
deriving DecidableEq, Repr

/-- `errors.Is(err, context.DeadlineExceeded)`: walks the `%w` unwrap
chain looking for the sentinel. -/
def isDeadlineExceeded : GoError → Bool
  | .deadlineExceeded => true
  | .wrap _ inner => isDeadlineExceeded inner
  | _ => false

/-- The `net.Error` type assertion plus `Timeout()` call,
`ne, ok := err.(net.Error); ok && ne.Timeout()`. A type assertion does not
unwrap, so only a bare `net` error can satisfy it. -/
def isTimeoutNetError : GoError → Bool
  | .net timeout _ => timeout
  | _ => false

/-- `retryableErr` (nanoleaf.go): reports whether the error should cause
another try. -/
def retryableErr : Option GoError → Bool
  | none => false
  | some err =>
    if isDeadlineExceeded err then true
    else if isTimeoutNetError err then true
    else false

/-- `baseTimeout = 100 * time.Millisecond`, in nanoseconds. -/
def baseTimeout : Nat := 100000000

/-- `maxTimeout = 5 * time.Second`, in nanoseconds. -/
def maxTimeout : Nat := 5000000000

/-- One step of the backoff update in `Controller.retry`:
`timeout = time.Duration(float64(timeout) * backoffMult)` followed by the
cap `if timeout > maxTimeout { timeout = maxTimeout }`, with
`backoffMult = 1.5`. For every value `t ≤ maxTimeout` the product
`float64(t) * 1.5 = 3t/2` is exact in binary64 (`3t < 2^53` and the result
has at most one fractional bit), and the conversion back to
`time.Duration` truncates, so the update is exactly `⌊3t/2⌋` capped. -/
def nextTimeout (t : Nat) : Nat :=
  if 3 * t / 2 > maxTimeout then maxTimeout else 3 * t / 2

/-- The per-attempt timeout used on attempt `k` (counting from 0):
`timeout` starts at `baseTimeout` and is updated by `nextTimeout` before
each retry. -/
def timeoutSeq : Nat → Nat
  | 0 => baseTimeout
  | k + 1 => nextTimeout (timeoutSeq k)

/-- The trace lines `Controller.retry` can emit through `c.tracef`:
`"Nanoleaf operation starting with timeout %v"` (with the per-attempt
timeout), `"Nanoleaf operation finished after %v"`, and
`"Nanoleaf operation giving up"`. -/
inductive TraceEvent where
  | starting (timeout : Nat)
  | finished
  | givingUp
deriving DecidableEq, Repr

/-- The `Controller` struct: device address, auth token, and whether the
optional trace hook `Tracef` is set (`hasTracef = (c.Tracef != nil)`). -/
structure Controller where
  ip : String
  authToken : String
  hasTracef : Bool
deriving DecidableEq, Repr

/-- `Controller.api`: URL construction. -/
def Controller.api (c : Controller) (token path : String) : String :=
  "http://" ++ c.ip ++ ":16021/api/v1/" ++ token ++ path

/-- `Controller.tracef`: forwards to `c.Tracef` when it is set, otherwise
does nothing. We record the observable effect as the list of emitted
trace events. -/
def Controller.tracef (c : Controller) (e : TraceEvent) : List TraceEvent :=
  if c.hasTracef then [e] else []

/-- The environment a run of `Controller.retry` interacts with:
`attempt k t` is the error returned by `f(sub)` on attempt number `k` when
the sub-context timeout is `t` (`none` = success), and `ctxErr k` is the
value of `ctx.Err()` — the umbrella context's status — as sampled by the
loop after attempt `k` fails retryably (`none` = still alive). An umbrella
context that is already expired or cancelled when the Retrier is entered
is an environment with `ctxErr k ≠ none` for every `k` (Go context errors
are sticky). -/
structure RetryEnv where
  attempt : Nat → Nat → Option GoError
  ctxErr : Nat → Option GoError

/-- Everything observable about one run of the retry loop: the attempts
made (attempt index paired with the per-attempt timeout passed to
`context.WithTimeout`), the trace lines emitted, and the returned error.
`result = none` means the fuel bound was hit while the loop was still
running (the Go loop has no attempt bound of its own);
`result = some e` means the loop returned the Go error `e`
(`some none` = returned `nil`, i.e. success). -/
structure RetryRun where
  attempts : List (Nat × Nat)
  trace : List TraceEvent
  result : Option (Option GoError)
deriving Repr

/-- The body of `Controller.retry`'s `for` loop, fuel-indexed: `k` is the
index of the next attempt and `timeout` the current per-attempt timeout.
Mirrors the source: run `f` under the sub-timeout; if the error is not
retryable, trace "finished" and return it; otherwise consult `ctx.Err()`
and either trace "giving up" and return the umbrella context's error, or
grow the timeout and loop. -/
def retryAux (c : Controller) (env : RetryEnv) :
    Nat → Nat → Nat → RetryRun
  | 0, _, _ => { attempts := [], trace := [], result := none }
  | fuel + 1, k, timeout =>
    let err := env.attempt k timeout
    if retryableErr err = false then
      { attempts := [(k, timeout)]
        trace := c.tracef (.starting timeout) ++ c.tracef .finished
        result := some err }
    else
      match env.ctxErr k with
      | some cerr =>
        { attempts := [(k, timeout)]
          trace := c.tracef (.starting timeout) ++ c.tracef .givingUp
          result := some (some cerr) }
      | none =>
        let rest := retryAux c env fuel (k + 1) (nextTimeout timeout)
        { attempts := (k, timeout) :: rest.attempts
          trace := c.tracef (.starting timeout) ++ rest.trace
          result := rest.result }

/-- `Controller.retry`: the loop entered with attempt index 0 and
`timeout = baseTimeout`. -/
def Controller.retry (c : Controller) (env : RetryEnv) (fuel : Nat) :
    RetryRun :=
  retryAux c env fuel 0 baseTimeout

/-! ### JSON request bodies and response handling -/

/-- The JSON values this client produces and `json.Marshal`'s view of
them: object fields keep the struct's field order. -/
inductive Json where
  | num (n : Int)
  | bool (b : Bool)
  | str (s : String)
  | obj (fields : List (String × Json))

mutual

/-- `json.Marshal`'s compact rendering of a `Json` value (none of the
strings this client marshals need escaping). -/
def renderJson : Json → String
  | .num n => toString n
  | .bool b => if b then "true" else "false"
  | .str s => "\"" ++ s ++ "\""
  | .obj fields => "\x7b" ++ renderFields fields ++ "\x7d"

/-- Comma-separated `"name":value` items of an object body. -/
def renderFields : List (String × Json) → String
  | [] => ""
  | [(name, v)] => "\"" ++ name ++ "\":" ++ renderJson v
  | (name, v) :: rest =>
    "\"" ++ name ++ "\":" ++ renderJson v ++ "," ++ renderFields rest

end

/-- Field lookup on an object value (`none` on non-objects and missing
fields). -/
def getField (j : Json) (name : String) : Option Json :=
  match j with
  | .obj fields => fields.lookup name
  | _ => none

/-- Two-level field lookup: `outer` then `inner`. -/
def bodyField (j : Json) (outer inner : String) : Option Json :=
  match getField j outer with
  | some j2 => getField j2 inner
  | none => none

/-- The request body `Controller.On` marshals:
a struct whose `On.Value` was set to `true`. -/
def onBody : Json := .obj [("on", .obj [("value", .bool true)])]

/-- The request body `Controller.Off` marshals: the zero struct, whose
`On.Value` is `false` (the field has no `omitempty`, so it is encoded). -/
def offBody : Json := .obj [("on", .obj [("value", .bool false)])]

/-- The request body `Controller.SetBrightness` marshals for brightness
`value` and duration `durNs` (nanoseconds, Go `time.Duration` is `int64`).
The Go struct field is `Duration int` with tag `json:"duration,omitempty"`;
it is assigned `int(dur / time.Second)` (truncated division) only when
`dur >= 0`, and `omitempty` drops the field whenever its value is the
zero `int`. -/
def setBrightnessBody (value durNs : Int) : Json :=
  let duration : Int := if 0 ≤ durNs then durNs.tdiv 1000000000 else 0
  .obj [("brightness", .obj (("value", .num value) ::
    (if duration = 0 then [] else [("duration", .num duration)])))]

/-- An HTTP response as `Controller.get` / `Controller.put` see it:
`statusCode` is `resp.StatusCode`, `status` is the status text
`resp.Status`, `body` the raw body bytes. -/
structure HttpResponse where
  statusCode : Nat
  status : String
  body : String
deriving DecidableEq, Repr

/-- The `State` struct `Controller.State` decodes into. -/
structure DeviceState where
  name : String
  serial : String
  firmwareVersion : String
  effectsSelected : String
  effectsList : List String
deriving DecidableEq, Repr

/-- The tail of `Controller.get` after the retried request: `retryErr` is
the error returned by `c.retry` (`none` = the request went through and
`resp` is the final response), `readErr` the error from reading the body,
and `unmarshal` models `encoding/json`'s `Unmarshal` (standard library,
external to this repository) as an oracle from the body text to either a
decoded `DeviceState` or a decode-error message. Mirrors the source
order: the status check precedes the body-read error check, which
precedes decoding. -/
def getResponse (retryErr : Option GoError) (resp : HttpResponse)
    (readErr : Option GoError)
    (unmarshal : String → Except String DeviceState) :
    Except GoError DeviceState :=
  match retryErr with
  | some e => .error e
  | none =>
    if 300 ≤ resp.statusCode then
      .error (.errorString ("HTTP response " ++ resp.status))
    else
      match readErr with
      | some e => .error (.wrap "reading HTTP response body" e)
      | none =>
        match unmarshal resp.body with
        | .error msg => .error (.jsonDecode msg)
        | .ok st => .ok st

/-- The tail of `Controller.put`: a status below 300 is success, anything
else becomes the HTTP-status error. -/
def putResponse (retryErr : Option GoError) (resp : HttpResponse) :
    Option GoError :=
  match retryErr with
  | some e => some e
  | none =>
    if 300 ≤ resp.statusCode then
      some (.errorString ("HTTP response " ++ resp.status))
    else none

/-- One HTTP request as issued by an attempt of `Controller.put`. -/
structure Request where
  method : String
  path : String
  body : String
deriving DecidableEq, Repr

/-- `Controller.put` end to end: marshal `obj`, run the retry loop (each
attempt issues one PUT of the marshalled body to `path` on a fresh
connection), then interpret the final response `resp`. Returns the
requests issued and the returned error (`none` if the fuel bound cut the
loop short, `some none` = success). -/
def putOp (c : Controller) (env : RetryEnv) (fuel : Nat) (path : String)
    (obj : Json) (resp : HttpResponse) :
    List Request × Option (Option GoError) :=
  let run := c.retry env fuel
  (run.attempts.map
    (fun _ => { method := "PUT", path := path, body := renderJson obj }),
   run.result.map (fun rerr => putResponse rerr resp))

/-- `Controller.On`: one `putOp` of `onBody` to `/state`. -/
def Controller.On (c : Controller) (env : RetryEnv) (fuel : Nat)
    (resp : HttpResponse) : List Request × Option (Option GoError) :=
  putOp c env fuel "/state" onBody resp

/-- `Controller.Off`: one `putOp` of `offBody` to `/state`. -/
def Controller.Off (c : Controller) (env : RetryEnv) (fuel : Nat)
    (resp : HttpResponse) : List Request × Option (Option GoError) :=
  putOp c env fuel "/state" offBody resp

/-! ### Concrete environments used to instantiate the theorems -/

/-- A transport on which every attempt succeeds immediately and the
umbrella context never expires. -/
def alwaysOkEnv : RetryEnv :=
  { attempt := fun _ _ => none, ctxErr := fun _ => none }

/-- Attempts 0 and 1 fail with the per-attempt deadline exceeded; the
umbrella context is alive after attempt 0 but has been cancelled by the
time attempt 1 fails. -/
def envCancelAfterTwo : RetryEnv :=
  { attempt := fun _ _ => some .deadlineExceeded
    ctxErr := fun j => if j = 0 then none else some .canceled }

/-- The first attempt fails with a non-retryable transport error
(connection refused: a `net.Error` whose `Timeout()` is false). -/
def envConnRefused : RetryEnv :=
  { attempt := fun _ _ => some (.net false "connection refused")
    ctxErr := fun _ => none }

/-- Attempt 0 times out retryably, attempt 1 succeeds; the umbrella
context stays alive. -/
def envOneRetry : RetryEnv :=
  { attempt := fun k _ => if k = 0 then some .deadlineExceeded else none
    ctxErr := fun _ => none }

/-- An umbrella context that is already expired when the Retrier is
entered: every attempt would time out and `ctx.Err()` is non-`nil` from
the start (Go context errors are sticky). -/
def envExpiredAtEntry : RetryEnv :=
  { attempt := fun _ _ => some .deadlineExceeded
    ctxErr := fun _ => some .deadlineExceeded }

/-- Attempts 0 and 1 fail with the per-attempt deadline exceeded,
attempt 2 succeeds; the umbrella context stays alive. -/
def envTwoRetries : RetryEnv :=
  { attempt := fun k _ => if k < 2 then some .deadlineExceeded else none
    ctxErr := fun _ => none }

/-- The example device state of the spec's state-query property. -/
def stLeftPanel : DeviceState :=
  { name := "Left Panel", serial := "ABC123", firmwareVersion := "1.0"
    effectsSelected := "Rainbow", effectsList := ["Rainbow", "Fade"] }

/-- A decoder oracle that accepts every body, producing `stLeftPanel`. -/
def unmarshalLeftPanel : String → Except String DeviceState :=
  fun _ => .ok stLeftPanel

/-- A decoder oracle that rejects every body. -/
def unmarshalReject : String → Except String DeviceState :=
  fun _ => .error "invalid character"

/-! ### Basic facts about the backoff schedule -/

lemma nextTimeout_le_max (t : Nat) : nextTimeout t ≤ maxTimeout := by
  unfold nextTimeout
  split <;> omega

lemma le_nextTimeout (t : Nat) (h : t ≤ maxTimeout) : t ≤ nextTimeout t := by
  unfold nextTimeout
  split <;> omega

lemma timeoutSeq_le_max (k : Nat) : timeoutSeq k ≤ maxTimeout := by
  cases k with
  | zero => decide
  | succ k => exact nextTimeout_le_max _

lemma timeoutSeq_mono (k : Nat) : timeoutSeq k ≤ timeoutSeq (k + 1) :=
  le_nextTimeout _ (timeoutSeq_le_max k)

lemma timeoutSeq_stable (k : Nat) (h : 10 ≤ k) : timeoutSeq k = maxTimeout := by
  induction k with
  | zero => omega
  | succ k ih =>
    rcases Nat.lt_or_ge k 10 with h9 | h10
    · have hk : k = 9 := by omega
      subst hk
      decide
    · have hstep : timeoutSeq (k + 1) = nextTimeout (timeoutSeq k) := rfl
      rw [hstep, ih h10]
      decide

lemma maxTimeout_pow_le (k : Nat) (h : 10 ≤ k) :
    maxTimeout * 2 ^ k ≤ baseTimeout * 3 ^ k := by
  induction k with
  | zero => omega
  | succ k ih =>
    rcases Nat.lt_or_ge k 10 with h9 | h10
    · have hk : k = 9 := by omega
      subst hk
      decide
    · have hx := ih h10
      calc maxTimeout * 2 ^ (k + 1) = 2 * (maxTimeout * 2 ^ k) := by ring
        _ ≤ 2 * (baseTimeout * 3 ^ k) := Nat.mul_le_mul_left 2 hx
        _ ≤ 3 * (baseTimeout * 3 ^ k) := Nat.mul_le_mul_right _ (by omega)
        _ = baseTimeout * 3 ^ (k + 1) := by ring

/-- Closed form of the timeout schedule: the per-attempt timeout on
attempt `k` is `min (⌊baseTimeout * 1.5^k⌋) maxTimeout` (Nat division
floors, matching Go's `time.Duration` truncation of the float product). -/
lemma timeoutSeq_formula (k : Nat) :
    timeoutSeq k = min (baseTimeout * 3 ^ k / 2 ^ k) maxTimeout := by
  rcases Nat.lt_or_ge k 10 with h | h
  · interval_cases k <;> decide
  · rw [timeoutSeq_stable k h]
    have h1 : maxTimeout ≤ baseTimeout * 3 ^ k / 2 ^ k := by
      rw [Nat.le_div_iff_mul_le (pow_pos (by norm_num) k)]
      exact maxTimeout_pow_le k h
    exact (min_eq_right h1).symm

/-! ### Unrolling the retry loop -/

lemma retryAux_succ (c : Controller) (env : RetryEnv) (fuel k timeout : Nat) :
    retryAux c env (fuel + 1) k timeout =
      if retryableErr (env.attempt k timeout) = false then
        { attempts := [(k, timeout)]
          trace := c.tracef (.starting timeout) ++ c.tracef .finished
          result := some (env.attempt k timeout) }
      else
        match env.ctxErr k with
        | some cerr =>
          { attempts := [(k, timeout)]
            trace := c.tracef (.starting timeout) ++ c.tracef .givingUp
            result := some (some cerr) }
        | none =>
          let rest := retryAux c env fuel (k + 1) (nextTimeout timeout)
          { attempts := (k, timeout) :: rest.attempts
            trace := c.tracef (.starting timeout) ++ rest.trace
            result := rest.result } := rfl

/-- An attempt that succeeds or fails non-retryably terminates the loop
at once, returning the attempt's own result. -/
lemma retryAux_not_retryable (c : Controller) (env : RetryEnv)
    (fuel k timeout : Nat)
    (h : retryableErr (env.attempt k timeout) = false) :
    retryAux c env (fuel + 1) k timeout =
      { attempts := [(k, timeout)]
        trace := c.tracef (.starting timeout) ++ c.tracef .finished
        result := some (env.attempt k timeout) } := by
  rw [retryAux_succ, if_pos h]

/-- A retryable failure followed by a non-`nil` `ctx.Err()` terminates
the loop, returning the umbrella context's error. -/
lemma retryAux_giveup (c : Controller) (env : RetryEnv)
    (fuel k timeout : Nat) (cerr : GoError)
    (h1 : retryableErr (env.attempt k timeout) = true)
    (h2 : env.ctxErr k = some cerr) :
    retryAux c env (fuel + 1) k timeout =
      { attempts := [(k, timeout)]
        trace := c.tracef (.starting timeout) ++ c.tracef .givingUp
        result := some (some cerr) } := by
  rw [retryAux_succ, h2, if_neg (by simp [h1])]

/-- A retryable failure with the umbrella context still alive continues
the loop with the grown timeout. -/
lemma retryAux_continue (c : Controller) (env : RetryEnv)
    (fuel k timeout : Nat)
    (h1 : retryableErr (env.attempt k timeout) = true)
    (h2 : env.ctxErr k = none) :
    retryAux c env (fuel + 1) k timeout =
      { attempts :=
          (k, timeout) :: (retryAux c env fuel (k + 1) (nextTimeout timeout)).attempts
        trace := c.tracef (.starting timeout) ++
          (retryAux c env fuel (k + 1) (nextTimeout timeout)).trace
        result := (retryAux c env fuel (k + 1) (nextTimeout timeout)).result } := by
  rw [retryAux_succ, h2, if_neg (by simp [h1])]

/-- Unrolling `n` consecutive retryable-failure attempts (umbrella still
alive): the run is `n` attempts at the scheduled timeouts followed by
whatever the loop does from attempt `i + n`. -/
lemma retryAux_unroll (c : Controller) (env : RetryEnv) (n : Nat) :
    ∀ (i fuel : Nat),
    (∀ j, i ≤ j → j < i + n →
      retryableErr (env.attempt j (timeoutSeq j)) = true ∧ env.ctxErr j = none) →
    retryAux c env (n + fuel) i (timeoutSeq i) =
      { attempts := (List.range' i n).map (fun j => (j, timeoutSeq j)) ++
          (retryAux c env fuel (i + n) (timeoutSeq (i + n))).attempts
        trace := (if c.hasTracef then
            (List.range' i n).map (fun j => TraceEvent.starting (timeoutSeq j))
          else []) ++ (retryAux c env fuel (i + n) (timeoutSeq (i + n))).trace
        result := (retryAux c env fuel (i + n) (timeoutSeq (i + n))).result } := by
  induction n with
  | zero =>
    intro i fuel _
    simp [List.range']
  | succ n ih =>
    intro i fuel h
    have hi := h i (le_refl i) (by omega)
    have hstep : (n + 1) + fuel = (n + fuel) + 1 := by omega
    rw [hstep, retryAux_continue c env (n + fuel) i (timeoutSeq i) hi.1 hi.2]
    have tnext : nextTimeout (timeoutSeq i) = timeoutSeq (i + 1) := rfl
    rw [tnext, ih (i + 1) fuel (fun j hj1 hj2 => h j (by omega) (by omega))]
    have hidx : (i + 1) + n = i + (n + 1) := by omega
    rw [hidx, List.range'_succ]
    by_cases hc : c.hasTracef <;> simp [Controller.tracef, hc]

/-- Full shape of a run whose attempts `0, ..., k-1` fail retryably with
the umbrella context alive and whose attempt `k` succeeds or fails
non-retryably. -/
lemma retry_stops_at (c : Controller) (env : RetryEnv) (k fuel : Nat)
    (hfuel : k < fuel)
    (hpre : ∀ j, j < k →
      retryableErr (env.attempt j (timeoutSeq j)) = true ∧ env.ctxErr j = none)
    (hk : retryableErr (env.attempt k (timeoutSeq k)) = false) :
    c.retry env fuel =
      { attempts := (List.range' 0 (k + 1)).map (fun j => (j, timeoutSeq j))
        trace := if c.hasTracef then
            (List.range' 0 (k + 1)).map
              (fun j => TraceEvent.starting (timeoutSeq j)) ++
              [TraceEvent.finished]
          else []
        result := some (env.attempt k (timeoutSeq k)) } := by
  have hm : fuel = k + ((fuel - k - 1) + 1) := by omega
  unfold Controller.retry
  rw [show baseTimeout = timeoutSeq 0 from rfl, hm,
    retryAux_unroll c env k 0 ((fuel - k - 1) + 1)
      (fun j _ hj2 => hpre j (by omega)),
    Nat.zero_add,
    retryAux_not_retryable c env (fuel - k - 1) k (timeoutSeq k) hk]
  by_cases hc : c.hasTracef <;>
    simp [Controller.tracef, hc, List.range'_1_concat]

/-- Full shape of a run whose attempts `0, ..., k-1` fail retryably with
the umbrella context alive, whose attempt `k` fails retryably, and where
`ctx.Err()` then reports the umbrella context expired or cancelled. -/
lemma retry_gives_up_at (c : Controller) (env : RetryEnv) (k fuel : Nat)
    (cerr : GoError)
    (hfuel : k < fuel)
    (hpre : ∀ j, j < k →
      retryableErr (env.attempt j (timeoutSeq j)) = true ∧ env.ctxErr j = none)
    (hk : retryableErr (env.attempt k (timeoutSeq k)) = true)
    (hcerr : env.ctxErr k = some cerr) :
    c.retry env fuel =
      { attempts := (List.range' 0 (k + 1)).map (fun j => (j, timeoutSeq j))
        trace := if c.hasTracef then
            (List.range' 0 (k + 1)).map
              (fun j => TraceEvent.starting (timeoutSeq j)) ++
              [TraceEvent.givingUp]
          else []
        result := some (some cerr) } := by
  have hm : fuel = k + ((fuel - k - 1) + 1) := by omega
  unfold Controller.retry
  rw [show baseTimeout = timeoutSeq 0 from rfl, hm,
    retryAux_unroll c env k 0 ((fuel - k - 1) + 1)
      (fun j _ hj2 => hpre j (by omega)),
    Nat.zero_add,
    retryAux_giveup c env (fuel - k - 1) k (timeoutSeq k) cerr hk hcerr]
  by_cases hc : c.hasTracef <;>
    simp [Controller.tracef, hc, List.range'_1_concat]

/-- The returned error and the attempts made do not depend on the
`Controller` value, in particular not on whether the trace hook is set. -/
lemma retryAux_hook_free (env : RetryEnv) :
    ∀ (fuel k t : Nat) (c c' : Controller),
    (retryAux c env fuel k t).result = (retryAux c' env fuel k t).result ∧
    (retryAux c env fuel k t).attempts = (retryAux c' env fuel k t).attempts := by
  intro fuel
  induction fuel with
  | zero => exact fun k t c c' => ⟨rfl, rfl⟩
  | succ fuel ih =>
    intro k t c c'
    rw [retryAux_succ, retryAux_succ]
    by_cases h : retryableErr (env.attempt k t) = false
    · rw [if_pos h, if_pos h]
      exact ⟨rfl, rfl⟩
    · rw [if_neg h, if_neg h]
      cases henv : env.ctxErr k with
      | some cerr => exact ⟨rfl, rfl⟩
      | none =>
        have h1 := (ih (k + 1) (nextTimeout t) c c').1
        have h2 := (ih (k + 1) (nextTimeout t) c c').2
        exact ⟨h1, by simp [h2]⟩

/-- With the trace hook absent, no trace line is ever emitted. -/
lemma retryAux_trace_nil (env : RetryEnv) (ip tok : String) :
    ∀ (fuel k t : Nat),
    (retryAux ⟨ip, tok, false⟩ env fuel k t).trace = [] := by
  intro fuel
  induction fuel with
  | zero => exact fun k t => rfl
  | succ fuel ih =>
    intro k t
    rw [retryAux_succ]
    by_cases h : retryableErr (env.attempt k t) = false
    · rw [if_pos h]
      rfl
    · rw [if_neg h]
      cases henv : env.ctxErr k with
      | some cerr => rfl
      | none => simp [Controller.tracef, ih (k + 1) (nextTimeout t)]

/-! ### Claim theorems -/

/-- C1: if attempts `0..k` all fail retryably and the umbrella context
is found expired or cancelled after attempt `k` (its `ctx.Err()` being
`cerr`), the Retrier returns the umbrella context's own error `cerr` —
not the failed attempt's error, whatever it was — and makes no attempt
beyond attempt `k`. -/
theorem retry_returns_umbrella_error (c : Controller) (env : RetryEnv)
    (k fuel : Nat) (cerr : GoError)
    (hfuel : k < fuel)
    (hpre : ∀ j, j < k →
      retryableErr (env.attempt j (timeoutSeq j)) = true ∧ env.ctxErr j = none)
    (hk : retryableErr (env.attempt k (timeoutSeq k)) = true)
    (hcerr : env.ctxErr k = some cerr) :
    (c.retry env fuel).result = some (some cerr) ∧
    (c.retry env fuel).attempts =
      (List.range' 0 (k + 1)).map (fun j => (j, timeoutSeq j)) := by
  rw [retry_gives_up_at c env k fuel cerr hfuel hpre hk hcerr]
  exact ⟨rfl, rfl⟩

/-- Witness for `retry_returns_umbrella_error`: two deadline-exceeded
attempts, cancellation detected after the second; the Retrier returns
`context.Canceled` — not the attempt's `context.DeadlineExceeded` — after
exactly two attempts. -/
theorem retry_returns_umbrella_error_witness :
    (Controller.retry ⟨"192.168.0.10", "token", true⟩ envCancelAfterTwo 3).result =
      some (some .canceled) ∧
    (Controller.retry ⟨"192.168.0.10", "token", true⟩ envCancelAfterTwo 3).attempts =
      (List.range' 0 2).map (fun j => (j, timeoutSeq j)) :=
  retry_returns_umbrella_error _ envCancelAfterTwo 1 3 .canceled (by omega)
    (fun j hj => by interval_cases j; exact ⟨rfl, rfl⟩) rfl rfl

/-- C4: whenever attempt `k` succeeds or fails with a non-retryable
error (after `k` retryable failures with the umbrella context alive), the
Retrier returns that attempt's result immediately and makes exactly
`k + 1` attempts; with `k = 0` this is the claim's first half — a
non-retryable first failure is returned after exactly one attempt. -/
theorem retry_terminal_result (c : Controller) (env : RetryEnv)
    (k fuel : Nat)
    (hfuel : k < fuel)
    (hpre : ∀ j, j < k →
      retryableErr (env.attempt j (timeoutSeq j)) = true ∧ env.ctxErr j = none)
    (hk : retryableErr (env.attempt k (timeoutSeq k)) = false) :
    (c.retry env fuel).result = some (env.attempt k (timeoutSeq k)) ∧
    (c.retry env fuel).attempts =
      (List.range' 0 (k + 1)).map (fun j => (j, timeoutSeq j)) := by
  rw [retry_stops_at c env k fuel hfuel hpre hk]
  exact ⟨rfl, rfl⟩

/-- Witness for `retry_terminal_result`: a connection-refused failure on
the first attempt is returned as-is with exactly one attempt made. -/
theorem retry_terminal_result_witness :
    (Controller.retry ⟨"192.168.0.10", "token", true⟩ envConnRefused 1).result =
      some (some (.net false "connection refused")) ∧
    (Controller.retry ⟨"192.168.0.10", "token", true⟩ envConnRefused 1).attempts =
      (List.range' 0 1).map (fun j => (j, timeoutSeq j)) :=
  retry_terminal_result _ envConnRefused 0 1 (by omega)
    (fun j hj => absurd hj (by omega)) rfl

/-- C10: the Retrier invokes the operation at least once for any
environment whatsoever — including one whose umbrella context is already
expired or cancelled at entry (`envExpiredAtEntry`-like, `ctxErr`
non-`nil` everywhere) — because `ctx.Err()` is consulted only after an
attempt has failed retryably, never before the first attempt: the first
attempt always runs, with timeout `baseTimeout`. -/
theorem retry_always_attempts_once (c : Controller) (env : RetryEnv)
    (fuel : Nat) (h : 0 < fuel) :
    (c.retry env fuel).attempts.head? = some (0, baseTimeout) := by
  obtain ⟨m, rfl⟩ : ∃ m, fuel = m + 1 := ⟨fuel - 1, by omega⟩
  unfold Controller.retry
  rw [retryAux_succ]
  split
  · rfl
  · split <;> rfl

/-- Witness for `retry_always_attempts_once`, on an umbrella context that
is expired before the Retrier is entered. -/
theorem retry_always_attempts_once_witness :
    (Controller.retry ⟨"192.168.0.10", "token", false⟩ envExpiredAtEntry 5).attempts.head? =
      some (0, baseTimeout) :=
  retry_always_attempts_once _ envExpiredAtEntry 5 (by omega)

/-- C9: two-run equivalence over the trace-hook field — the returned
error and the attempts made are identical for any two `Controller`
values (in particular whether or not `Tracef` is set), and with the hook
absent no trace output is produced at all. -/
theorem retry_hook_no_influence (env : RetryEnv) (fuel : Nat) :
    (∀ c c' : Controller,
      (c.retry env fuel).result = (c'.retry env fuel).result ∧
      (c.retry env fuel).attempts = (c'.retry env fuel).attempts) ∧
    (∀ ip tok : String,
      (Controller.retry ⟨ip, tok, false⟩ env fuel).trace = []) :=
  ⟨fun c c' => retryAux_hook_free env fuel 0 baseTimeout c c',
   fun ip tok => retryAux_trace_nil env ip tok fuel 0 baseTimeout⟩

/-- C3: the classifier returns true exactly when the error is (possibly
wrapped) `context.DeadlineExceeded` — the per-attempt sub-deadline — or a
bare `net.Error` whose `Timeout()` reports true; `nil`, a malformed
request, connection refused (a non-timeout `net.Error`), a non-timeout
I/O failure, and `context.Canceled` are all classified non-retryable. -/
theorem retryableErr_classification :
    (∀ err : GoError,
      retryableErr (some err) =
        (isDeadlineExceeded err || isTimeoutNetError err)) ∧
    retryableErr none = false ∧
    retryableErr (some .deadlineExceeded) = true ∧
    retryableErr (some (.wrap "making HTTP request" .deadlineExceeded)) = true ∧
    retryableErr (some (.net true "i/o timeout")) = true ∧
    retryableErr (some (.errorString "preparing HTTP request: malformed URL")) = false ∧
    retryableErr (some (.net false "connection refused")) = false ∧
    retryableErr (some (.errorString "unexpected EOF")) = false ∧
    retryableErr (some .canceled) = false := by
  refine ⟨?_, rfl, rfl, rfl, rfl, rfl, rfl, rfl, rfl⟩
  intro err
  unfold retryableErr
  cases h1 : isDeadlineExceeded err <;>
    cases h2 : isTimeoutNetError err <;> simp [h1, h2]

/-- C2 counterexample: the claimed exact formula
`timeout on attempt k = min(100ms * 1.5^k, 5s)` fails at `k = 9`: the
real value `100ms * 1.5^9 = 3844335937.5ns` is below the cap but is not
what the code uses — the conversion `time.Duration(float64(t) * 1.5)`
truncates to `3844335937ns`. -/
theorem retry_backoff_formula_counterexample :
    (timeoutSeq 9 : ℚ) ≠ min (100000000 * (3 / 2) ^ 9) 5000000000 := by
  have h9 : timeoutSeq 9 = 3844335937 := by decide
  rw [h9, min_eq_left (by norm_num)]
  norm_num

/-- C2 (amended): the per-attempt timeout sequence starts at 100ms, is
monotonically non-decreasing, is bounded above by 5s, and the timeout on
attempt `k` equals `min(⌊100ms * 1.5^k⌋, 5s)` — the floor reflecting the
code's truncating conversion back to `time.Duration`; and a run of `N-1`
retryable failures followed by a success returns the success result
(`nil`) after exactly the `N` scheduled attempts. -/
theorem retry_backoff_schedule :
    timeoutSeq 0 = baseTimeout ∧
    (∀ k, timeoutSeq k ≤ timeoutSeq (k + 1)) ∧
    (∀ k, timeoutSeq k ≤ maxTimeout) ∧
    (∀ k, timeoutSeq k = min (baseTimeout * 3 ^ k / 2 ^ k) maxTimeout) ∧
    (∀ (c : Controller) (env : RetryEnv) (N fuel : Nat),
      0 < N → N ≤ fuel →
      (∀ j, j < N - 1 →
        retryableErr (env.attempt j (timeoutSeq j)) = true ∧
          env.ctxErr j = none) →
      env.attempt (N - 1) (timeoutSeq (N - 1)) = none →
      (c.retry env fuel).result = some none ∧
      (c.retry env fuel).attempts =
        (List.range' 0 N).map (fun j => (j, timeoutSeq j))) := by
  refine ⟨rfl, timeoutSeq_mono, timeoutSeq_le_max, timeoutSeq_formula, ?_⟩
  intro c env N fuel hN hfuel hpre hsucc
  have hshape := retry_stops_at c env (N - 1) fuel (by omega) hpre
    (by rw [hsucc]; rfl)
  rw [hshape]
  have hN1 : N - 1 + 1 = N := by omega
  rw [hN1]
  exact ⟨by rw [hsucc], rfl⟩

/-- Witness for `retry_backoff_schedule`: two deadline-exceeded failures
followed by a success return `nil` after the three scheduled attempts. -/
theorem retry_backoff_schedule_witness :
    (Controller.retry ⟨"192.168.0.10", "token", true⟩ envTwoRetries 3).result =
      some none ∧
    (Controller.retry ⟨"192.168.0.10", "token", true⟩ envTwoRetries 3).attempts =
      (List.range' 0 3).map (fun j => (j, timeoutSeq j)) :=
  retry_backoff_schedule.2.2.2.2 _ envTwoRetries 3 3 (by omega) (by omega)
    (fun j hj => by interval_cases j <;> exact ⟨rfl, rfl⟩) rfl

/-- C5 counterexample: with the trace hook set, a two-attempt operation
(one retryable failure, then success) invokes the hook three times — a
"starting" line before each of the two attempts plus the final
"finished" line — not exactly once at the start and once at the end. -/
theorem trace_not_once_per_operation :
    (Controller.retry ⟨"192.168.0.10", "token", true⟩ envOneRetry 5).trace =
      [.starting baseTimeout, .starting (nextTimeout baseTimeout),
        .finished] ∧
    (Controller.retry ⟨"192.168.0.10", "token", true⟩ envOneRetry 5).trace.length ≠ 2 := by
  exact ⟨rfl, by decide⟩

/-- C5 (amended): during one logical operation that makes `k + 1`
attempts and ends with a success or permanent failure, the tracing
callback is invoked once at the start of each attempt (carrying that
attempt's timeout) — so `k + 1` times, not once — plus exactly once at
the end of the overall operation; the end invocation reports the elapsed
time of the final attempt (`time.Since(t0)` with `t0` reset per attempt;
wall-clock timing itself is outside this model). -/
theorem retry_trace_once_per_attempt (ip tok : String) (env : RetryEnv)
    (k fuel : Nat)
    (hfuel : k < fuel)
    (hpre : ∀ j, j < k →
      retryableErr (env.attempt j (timeoutSeq j)) = true ∧ env.ctxErr j = none)
    (hk : retryableErr (env.attempt k (timeoutSeq k)) = false) :
    (Controller.retry ⟨ip, tok, true⟩ env fuel).trace =
      (List.range' 0 (k + 1)).map
        (fun j => TraceEvent.starting (timeoutSeq j)) ++
        [TraceEvent.finished] := by
  rw [retry_stops_at ⟨ip, tok, true⟩ env k fuel hfuel hpre hk]
  simp

/-- Witness for `retry_trace_once_per_attempt`: the two-attempt run
traces "starting" twice and "finished" once. -/
theorem retry_trace_once_per_attempt_witness :
    (Controller.retry ⟨"192.168.0.10", "token", true⟩ envOneRetry 5).trace =
      (List.range' 0 2).map
        (fun j => TraceEvent.starting (timeoutSeq j)) ++
        [TraceEvent.finished] :=
  retry_trace_once_per_attempt "192.168.0.10" "token" envOneRetry 1 5 (by omega)
    (fun j hj => by interval_cases j; exact ⟨rfl, rfl⟩) rfl

/-- C6 counterexample: a non-negative duration of 500ms does not put the
duration field into the encoded body — `int(500ms / time.Second)` is the
zero `int`, which `omitempty` drops — refuting "the duration field is
present if and only if the caller supplies a non-negative duration". -/
theorem setBrightness_duration_counterexample :
    ¬ ((bodyField (setBrightnessBody 50 500000000) "brightness" "duration" ≠ none) ↔
        (0 : Int) ≤ 500000000) := by
  intro h
  exact (h.mpr (by norm_num)) rfl

/-- C6 (amended): the encoded Set-brightness body contains the duration
field iff the supplied duration is at least one whole second — a negative
duration is never encoded, and a non-negative duration under 1s truncates
to the zero `int`, which `omitempty` also drops; when present the field
holds the duration in whole (truncated) seconds, e.g. 1500ms encodes as
1; the brightness value field is always present. -/
theorem setBrightness_duration_encoding (value durNs : Int) :
    (durNs < 0 →
      bodyField (setBrightnessBody value durNs) "brightness" "duration" = none) ∧
    (0 ≤ durNs → durNs < 1000000000 →
      bodyField (setBrightnessBody value durNs) "brightness" "duration" = none) ∧
    (1000000000 ≤ durNs →
      bodyField (setBrightnessBody value durNs) "brightness" "duration" =
        some (.num (durNs.tdiv 1000000000))) ∧
    bodyField (setBrightnessBody value 1500000000) "brightness" "duration" =
      some (.num 1) ∧
    bodyField (setBrightnessBody value durNs) "brightness" "value" =
      some (.num value) := by
  refine ⟨?_, ?_, ?_, rfl, ?_⟩
  · intro h
    simp only [setBrightnessBody]
    rw [if_neg (show ¬ (0 : Int) ≤ durNs by omega)]
    simp [bodyField, getField, List.lookup]
  · intro h0 h1
    have hz : durNs.tdiv 1000000000 = 0 := by
      rw [Int.tdiv_eq_ediv h0 (by norm_num)]
      exact Int.ediv_eq_zero_of_lt h0 h1
    simp only [setBrightnessBody]
    rw [if_pos (show (0 : Int) ≤ durNs from h0), hz]
    simp [bodyField, getField, List.lookup]
  · intro h
    have hz : ¬ durNs.tdiv 1000000000 = 0 := by
      rw [Int.tdiv_eq_ediv (by omega) (by norm_num)]
      have h1 : (1 : Int) ≤ durNs / 1000000000 :=
        (Int.le_ediv_iff_mul_le (by norm_num)).mpr (by omega)
      omega
    simp only [setBrightnessBody]
    rw [if_pos (show (0 : Int) ≤ durNs by omega), if_neg hz]
    simp [bodyField, getField, List.lookup]
  · simp only [setBrightnessBody]
    by_cases h0 : (0 : Int) ≤ durNs
    · rw [if_pos (show (0 : Int) ≤ durNs from h0)]
      by_cases hz : durNs.tdiv 1000000000 = 0
      · rw [hz]
        simp [bodyField, getField, List.lookup]
      · rw [if_neg hz]
        simp [bodyField, getField, List.lookup]
    · rw [if_neg (show ¬ (0 : Int) ≤ durNs from h0)]
      simp [bodyField, getField, List.lookup]

/-- Witness for `setBrightness_duration_encoding` at durations -1ns,
500ms, and 1500ms. -/
theorem setBrightness_duration_encoding_witness :
    bodyField (setBrightnessBody 50 (-1)) "brightness" "duration" = none ∧
    bodyField (setBrightnessBody 50 500000000) "brightness" "duration" = none ∧
    bodyField (setBrightnessBody 50 1500000000) "brightness" "duration" =
      some (.num 1) ∧
    bodyField (setBrightnessBody 50 1500000000) "brightness" "value" =
      some (.num 50) :=
  ⟨(setBrightness_duration_encoding 50 (-1)).1 (by norm_num),
   (setBrightness_duration_encoding 50 500000000).2.1 (by norm_num) (by norm_num),
   (setBrightness_duration_encoding 50 1500000000).2.2.2.1,
   (setBrightness_duration_encoding 50 1500000000).2.2.2.2⟩

/-- C7: after a successful retried GET exchange, a status of 300 or more
yields the HTTP-status error carrying the status text — for every body
and every decoder, so decoding is never reached; a decoded `DeviceState`
is produced only when the status is below 300 (and the decoder accepted
the body); a decode failure surfaces as the `jsonDecode` error, which is
distinct from the HTTP-status `errorString` error. -/
theorem get_decode_gated_by_status (resp : HttpResponse)
    (readErr : Option GoError)
    (unmarshal : String → Except String DeviceState) :
    (300 ≤ resp.statusCode →
      getResponse none resp readErr unmarshal =
        .error (.errorString ("HTTP response " ++ resp.status))) ∧
    (∀ st, getResponse none resp readErr unmarshal = .ok st →
      resp.statusCode < 300 ∧ readErr = none ∧ unmarshal resp.body = .ok st) ∧
    (∀ msg, resp.statusCode < 300 → readErr = none →
      unmarshal resp.body = .error msg →
      getResponse none resp readErr unmarshal = .error (.jsonDecode msg)) ∧
    (∀ msg text, GoError.jsonDecode msg ≠ GoError.errorString text) := by
  refine ⟨?_, ?_, ?_, fun msg text h => GoError.noConfusion h⟩
  · intro h
    unfold getResponse
    rw [if_pos h]
  · intro st h
    unfold getResponse at h
    by_cases hs : 300 ≤ resp.statusCode
    · rw [if_pos hs] at h
      simp at h
    · rw [if_neg hs] at h
      cases hre : readErr with
      | some e =>
        rw [hre] at h
        simp at h
      | none =>
        rw [hre] at h
        cases hu : unmarshal resp.body with
        | error m =>
          rw [hu] at h
          simp at h
        | ok st2 =>
          rw [hu] at h
          simp at h
          subst h
          exact ⟨by omega, rfl, rfl⟩
  · intro msg hs hre hu
    unfold getResponse
    rw [if_neg (by omega), hre, hu]

/-- Witness for `get_decode_gated_by_status`: a 500 response with a
garbage body is turned into the status error without the (failing)
decoder ever mattering; a 200 response with a decoder that accepts the
body decodes; a 200 response whose body the decoder rejects yields the
distinct decode error. -/
theorem get_decode_gated_by_status_witness :
    getResponse none ⟨500, "500 Internal Server Error", "\x7bgarbage"⟩ none
        unmarshalReject =
      .error (.errorString ("HTTP response " ++ "500 Internal Server Error")) ∧
    ((⟨200, "200 OK", "body"⟩ : HttpResponse).statusCode < 300 ∧
      (none : Option GoError) = none ∧
      unmarshalLeftPanel (⟨200, "200 OK", "body"⟩ : HttpResponse).body =
        Except.ok stLeftPanel) ∧
    getResponse none ⟨200, "200 OK", "\x7bgarbage"⟩ none
        unmarshalReject =
      .error (.jsonDecode "invalid character") ∧
    GoError.jsonDecode "invalid character" ≠
      GoError.errorString "HTTP response 500 Internal Server Error" :=
  ⟨(get_decode_gated_by_status _ none _).1 (by norm_num),
   (get_decode_gated_by_status ⟨200, "200 OK", "body"⟩ none
      unmarshalLeftPanel).2.1 stLeftPanel rfl,
   (get_decode_gated_by_status _ none _).2.2.1 "invalid character"
     (by norm_num) rfl rfl,
   (get_decode_gated_by_status ⟨500, "500 Internal Server Error", ""⟩ none
      unmarshalReject).2.2.2 "invalid character"
     "HTTP response 500 Internal Server Error"⟩

/-- C8: with an always-succeeding transport, a Power-on call performs
exactly one PUT to `/state` with body `\x7b"on":\x7b"value":true\x7d\x7d`
and a Power-off call exactly one PUT to `/state` with body
`\x7b"on":\x7b"value":false\x7d\x7d`; any response status below 300 is
treated as success (`nil` error returned). -/
theorem on_off_single_put (c : Controller) (resp : HttpResponse)
    (fuel : Nat) (hfuel : 0 < fuel) (hstatus : resp.statusCode < 300) :
    c.On alwaysOkEnv fuel resp =
      ([{ method := "PUT", path := "/state",
          body := "\x7b\"on\":\x7b\"value\":true\x7d\x7d" }], some none) ∧
    c.Off alwaysOkEnv fuel resp =
      ([{ method := "PUT", path := "/state",
          body := "\x7b\"on\":\x7b\"value\":false\x7d\x7d" }], some none) := by
  obtain ⟨m, rfl⟩ : ∃ m, fuel = m + 1 := ⟨fuel - 1, by omega⟩
  have hrun : Controller.retry c alwaysOkEnv (m + 1) =
      { attempts := [(0, baseTimeout)]
        trace := c.tracef (.starting baseTimeout) ++ c.tracef .finished
        result := some none } := by
    unfold Controller.retry
    exact retryAux_not_retryable c alwaysOkEnv m 0 baseTimeout rfl
  have hput : putResponse none resp = none := by
    unfold putResponse
    exact if_neg (by omega)
  have hon : renderJson onBody = "\x7b\"on\":\x7b\"value\":true\x7d\x7d" := rfl
  have hoff : renderJson offBody = "\x7b\"on\":\x7b\"value\":false\x7d\x7d" := rfl
  constructor
  · unfold Controller.On putOp
    rw [hrun]
    simp [hput, hon]
  · unfold Controller.Off putOp
    rw [hrun]
    simp [hput, hoff]

/-- Witness for `on_off_single_put` with a 204 response. -/
theorem on_off_single_put_witness :
    Controller.On ⟨"192.168.0.10", "token", false⟩ alwaysOkEnv 1
        ⟨204, "204 No Content", ""⟩ =
      ([{ method := "PUT", path := "/state",
          body := "\x7b\"on\":\x7b\"value\":true\x7d\x7d" }], some none) ∧
    Controller.Off ⟨"192.168.0.10", "token", false⟩ alwaysOkEnv 1
        ⟨204, "204 No Content", ""⟩ =
      ([{ method := "PUT", path := "/state",
          body := "\x7b\"on\":\x7b\"value\":false\x7d\x7d" }], some none) :=
  on_off_single_put _ _ 1 (by omega) (by decide)

end Nanoleaf
